import Mathlib

/-!
Verification development for the outbound SMTP delivery engine
(src/crates/smtp/src/outbound/delivery.rs).  The queue data model and the
`deliver_task` control flow are shallowly embedded as executable Lean
functions; environment interactions (DNS, rate limiters, the SMTP wire,
configuration evaluation) are supplied by explicit oracle records so that
each run of the embedded worker is a pure function of its inputs.
-/

set_option maxRecDepth 8192

/-! ## Data model (queue structures manipulated by delivery.rs) -/

/-- Error taxonomy used by the delivery code (crate::queue::Error).  Only the
constructors that appear in delivery.rs are modelled; entity/details pairs
are flattened to strings. -/
inductive Error where
  | dnsError (reason : String)
  | mtaStsError (reason : String)
  | daneError (entity details : String)
  | tlsError (entity details : String)
  | smtpError (entity details : String)
  | ioError (reason : String)
  | rateLimited (retryAt : Nat)
deriving DecidableEq, Inhabited

/-- Status taxonomy (crate::queue::Status): Scheduled, Completed(response),
TemporaryFailure(err), PermanentFailure(err).  The generic response type is
instantiated with String for both domains and recipients. -/
inductive Status where
  | scheduled
  | completed (response : String)
  | temporaryFailure (err : Error)
  | permanentFailure (err : Error)
deriving DecidableEq, Inhabited

/-- Modelled from the spec: Status::into_permanent is defined outside src/;
the spec says it converts Temporary to Permanent losslessly (other variants
are returned unchanged). -/
def Status.into_permanent : Status → Status
  | .temporaryFailure e => .permanentFailure e
  | s => s

/-- Modelled from the spec: Status::into_temporary is the conversion applied
to non-strict STARTTLS handshake errors ("if strict, permanent; else
temporary"); it converts Permanent to Temporary and leaves other variants
unchanged. -/
def Status.into_temporary : Status → Status
  | .permanentFailure e => .temporaryFailure e
  | s => s

/-- Modelled from the spec: Status::from_tls_error is defined outside src/;
a TLS handshake error produces a permanent TLS failure for the given host
(delivery.rs applies into_temporary on the non-strict STARTTLS path). -/
def Status.from_tls_error (mx : String) (reason : String) : Status :=
  .permanentFailure (.tlsError mx reason)

/-- Modelled from the spec: Status::from_starttls_error is defined outside
src/; scenario S4 expects a temporary TLS status when STARTTLS is refused. -/
def Status.from_starttls_error (mx : String) (resp : Option String) : Status :=
  .temporaryFailure (.tlsError mx (resp.getD "STARTTLS was not advertised by host"))

/-- The statuses matched by `Status::Scheduled | Status::TemporaryFailure(_)`
patterns in delivery.rs (a domain in one of these states is still pending). -/
def Status.pendingB : Status → Bool
  | .scheduled | .temporaryFailure _ => true
  | _ => false

/-- True exactly on Status::Scheduled (used by the had-attempts check of
Message::has_pending_delivery). -/
def Status.isScheduledB : Status → Bool
  | .scheduled => true
  | _ => false

/-- Retry/notify schedule entry (store Schedule: due timestamp plus inner
counter). -/
structure Schedule where
  due : Nat
  inner : Nat
deriving DecidableEq, Inhabited

/-- One entry per distinct recipient domain (crate::queue::Domain). -/
structure Domain where
  domain : String
  status : Status
  retry : Schedule
  notify : Schedule
  expires : Nat
deriving DecidableEq, Inhabited

/-- Per-recipient record (crate::queue::Recipient). -/
structure Recipient where
  address_lcase : String
  domain_idx : Nat
  status : Status
  notify : Schedule
  flags : Nat
  orcpt : Option String
deriving DecidableEq, Inhabited

/-- The queued message (crate::queue::Message), restricted to the fields
delivery.rs reads or writes. -/
structure Message where
  flags : Nat
  domains : List Domain
  recipients : List Recipient
deriving DecidableEq, Inhabited

/-- The REQUIRETLS message flag bit (smtp_proto::MAIL_REQUIRETLS); the exact
bit value is opaque to delivery.rs, any fixed power of two is faithful. -/
def MAIL_REQUIRETLS : Nat := 2048

/-- u64::MAX, used by the sender-throttle branch of deliver_task. -/
def UMAX : Nat := 18446744073709551615

/-! ## Domain::retry and Domain::set_status (delivery.rs lines 1422-1437) -/

/-- Embeds Domain::retry (the clock now() is passed explicitly):
`retry.due = now + schedule[min(retry.inner, schedule.len() - 1)]` and
`retry.inner += 1`.  Out-of-bounds indexing is totalised with getD; the
companion retryNowChecked records when the Rust indexing would panic. -/
def Domain.retryNow (d : Domain) (now : Nat) (schedule : List Nat) : Domain :=
  { d with retry := { due := now + schedule.getD (min d.retry.inner (schedule.length - 1)) 0,
                      inner := d.retry.inner + 1 } }

/-- Panic-aware version of Domain::retry: `none` when the Rust indexing
`schedule[min(inner, len - 1)]` would panic (for the empty schedule the
`len - 1` computation underflows and the index is out of bounds). -/
def Domain.retryNowChecked (d : Domain) (now : Nat) (schedule : List Nat) : Option Domain :=
  (schedule[min d.retry.inner (schedule.length - 1)]?).map fun dur =>
    { d with retry := { due := now + dur, inner := d.retry.inner + 1 } }

/-- Embeds Domain::set_status: assign the status, then call retry exactly
when the newly assigned status matches Scheduled or TemporaryFailure. -/
def Domain.set_status (d : Domain) (now : Nat) (s : Status) (schedule : List Nat) : Domain :=
  let d2 : Domain := { d with status := s }
  if d2.status.pendingB then d2.retryNow now schedule else d2

/-- Modelled from the spec: Domain::set_rate_limiter_error is defined outside
src/; rate-limit denial only defers retry.due to retry_at (never advancing
retry.inner) and records a temporary rate-limit status. -/
def Domain.set_rate_limiter_error (d : Domain) (retryAt : Nat) : Domain :=
  { d with status := .temporaryFailure (.rateLimited retryAt),
           retry := { due := retryAt, inner := d.retry.inner } }

/-- The per-call-site schedule computation of deliver_task:
`eval_if(retry).unwrap_or_else(|| vec![Duration::from_secs(60)])`. -/
def scheduleOf (o : Option (List Nat)) : List Nat := o.getD [60]

/-! ## Message::has_pending_delivery (delivery.rs lines 1352-1419) -/

/-- The reason recorded for an expired domain that was never attempted. -/
def expiredNoAttemptsReason : String := "Message expired without any delivery attempts made."

/-- The reason recorded for an expired domain whose recipients had delivery
attempts. -/
def expiredAttemptsReason : String := "Message delivery failed."

/-- The per-recipient update of the expiry sweep: recipients of the expired
domain get `status.into_permanent()`, others are untouched. -/
def sweepEntry (idx : Nat) (r : Recipient) : Recipient :=
  if r.domain_idx = idx then { r with status := r.status.into_permanent } else r

/-- Sweep every recipient of domain `idx` to a permanent status. -/
def sweepRcpts (idx : Nat) (rcpts : List Recipient) : List Recipient :=
  rcpts.map (sweepEntry idx)

/-- The had_attempts check: some recipient of domain `idx` is not in Scheduled. -/
def rcptHadAttempts (idx : Nat) (rcpts : List Recipient) : Bool :=
  rcpts.any fun r => decide (r.domain_idx = idx) && !r.status.isScheduledB

/-- One iteration of the has_pending_delivery loop: the updated domain, the
updated recipients, and whether this domain keeps the message pending. -/
def sweepStep (now idx : Nat) (d : Domain) (rcpts : List Recipient) :
    Domain × List Recipient × Bool :=
  match d.status with
  | .temporaryFailure e =>
    if d.expires ≤ now then
      ({ d with status := (Status.temporaryFailure e).into_permanent },
       sweepRcpts idx rcpts, false)
    else (d, rcpts, true)
  | .scheduled =>
    if d.expires ≤ now then
      ({ d with status := .permanentFailure (.ioError
           (if rcptHadAttempts idx rcpts then expiredAttemptsReason
            else expiredNoAttemptsReason)) },
       sweepRcpts idx rcpts, false)
    else (d, rcpts, true)
  | _ => (d, rcpts, false)

/-- The has_pending_delivery loop over `self.domains.iter_mut().enumerate()`,
threading the recipients vector exactly as the Rust loop does. -/
def sweepGo (now : Nat) : Nat → List Domain → List Recipient →
    List Domain × List Recipient × Bool
  | _, [], rcpts => ([], rcpts, false)
  | idx, d :: ds, rcpts =>
    ((sweepStep now idx d rcpts).1 ::
        (sweepGo now (idx + 1) ds (sweepStep now idx d rcpts).2.1).1,
     (sweepGo now (idx + 1) ds (sweepStep now idx d rcpts).2.1).2.1,
     (sweepStep now idx d rcpts).2.2 ||
        (sweepGo now (idx + 1) ds (sweepStep now idx d rcpts).2.1).2.2)

/-- Embeds Message::has_pending_delivery (the clock passed explicitly):
marks as failed all domains past expiration, returns whether any domain is
still pending. -/
def Message.has_pending_delivery (m : Message) (now : Nat) : Message × Bool :=
  ({ m with domains := (sweepGo now 0 m.domains m.recipients).1,
            recipients := (sweepGo now 0 m.domains m.recipients).2.1 },
   (sweepGo now 0 m.domains m.recipients).2.2)

/-! ## Specification-side description of the sweep (used to state C2) -/

/-- Spec-side image of one domain after the sweep: an expired pending domain
becomes PermanentFailure (keeping the temporary error, or recording the
attempted/never-attempted reason when it was still Scheduled). -/
def sweptDomain (now : Nat) (hadAttempts : Bool) (d : Domain) : Domain :=
  match d.status with
  | .temporaryFailure e =>
    if d.expires ≤ now then { d with status := .permanentFailure e } else d
  | .scheduled =>
    if d.expires ≤ now then
      { d with status := .permanentFailure (.ioError
          (if hadAttempts then expiredAttemptsReason else expiredNoAttemptsReason)) }
    else d
  | _ => d

/-- Spec-side image of the domain list after the sweep, with the
had-attempts flag computed against the original recipients. -/
def sweptDomains (now : Nat) : Nat → List Recipient → List Domain → List Domain
  | _, _, [] => []
  | idx, rs, d :: ds =>
    sweptDomain now (rcptHadAttempts idx rs) d :: sweptDomains now (idx + 1) rs ds

/-- A domain is pending and already past its expiry cutoff. -/
def expiresPendingB (now : Nat) (d : Domain) : Bool :=
  d.status.pendingB && decide (d.expires ≤ now)

/-- Spec-side image of one recipient after the sweep: its status is made
permanent exactly when its own domain (at offset idx) is pending and
expired. -/
def sweptRcptAt (now idx : Nat) (ds : List Domain) (r : Recipient) : Recipient :=
  if idx ≤ r.domain_idx then
    match ds[r.domain_idx - idx]? with
    | some d =>
      if expiresPendingB now d then { r with status := r.status.into_permanent } else r
    | none => r
  else r

/-! ## Sweep characterisation lemmas -/

theorem sweepStep_eq (now idx : Nat) (d : Domain) (rs : List Recipient) :
    sweepStep now idx d rs =
      (sweptDomain now (rcptHadAttempts idx rs) d,
       (if expiresPendingB now d then sweepRcpts idx rs else rs),
       d.status.pendingB && decide (now < d.expires)) := by
  rcases d with ⟨dn, st, rt, nt, ex⟩
  cases st <;> simp [sweepStep, sweptDomain, expiresPendingB, Status.pendingB,
    Status.into_permanent] <;> split <;> simp_all

theorem rcptHadAttempts_sweepRcpts (i j : Nat) (hne : i ≠ j) (rs : List Recipient) :
    rcptHadAttempts j (sweepRcpts i rs) = rcptHadAttempts j rs := by
  induction rs with
  | nil => rfl
  | cons r rs ih =>
    have hr : (decide ((sweepEntry i r).domain_idx = j) && !(sweepEntry i r).status.isScheduledB)
        = (decide (r.domain_idx = j) && !r.status.isScheduledB) := by
      rcases r with ⟨a, dix, st, nt, fl, oc⟩
      by_cases h : dix = i
      · subst h
        simp [sweepEntry, hne]
      · simp [sweepEntry, h]
    simp only [rcptHadAttempts, sweepRcpts, List.map_cons, List.any_cons] at *
    rw [hr, ih]

theorem sweptDomains_congr (now : Nat) (ds : List Domain) :
    ∀ idx (rs1 rs2 : List Recipient),
      (∀ j, idx ≤ j → rcptHadAttempts j rs1 = rcptHadAttempts j rs2) →
      sweptDomains now idx rs1 ds = sweptDomains now idx rs2 ds := by
  induction ds with
  | nil => intro idx rs1 rs2 _; rfl
  | cons d ds ih =>
    intro idx rs1 rs2 h
    simp only [sweptDomains]
    rw [h idx (Nat.le_refl idx), ih (idx + 1) rs1 rs2 (fun j hj => h j (by omega))]

theorem sweptRcptAt_cons (now idx : Nat) (d : Domain) (ds : List Domain) (r : Recipient) :
    sweptRcptAt now idx (d :: ds) r =
      (if expiresPendingB now d then sweptRcptAt now (idx + 1) ds (sweepEntry idx r)
       else sweptRcptAt now (idx + 1) ds r) := by
  rcases r with ⟨a, dix, st, nt, fl, oc⟩
  by_cases hd : dix = idx
  · subst hd
    by_cases he : expiresPendingB now d <;>
      simp [sweptRcptAt, sweepEntry, he, Nat.sub_self]
  · by_cases hle : idx ≤ dix
    · have h1 : idx + 1 ≤ dix := by omega
      have h2 : dix - idx = (dix - (idx + 1)) + 1 := by omega
      by_cases he : expiresPendingB now d <;>
        simp [sweptRcptAt, sweepEntry, hd, hle, h1, h2, he]
    · have h1 : ¬ idx + 1 ≤ dix := by omega
      by_cases he : expiresPendingB now d <;>
        simp [sweptRcptAt, sweepEntry, hd, hle, h1, he]

theorem sweptRcptAt_nil (now idx : Nat) (r : Recipient) :
    sweptRcptAt now idx [] r = r := by
  simp [sweptRcptAt]

theorem sweepGo_pending (now : Nat) (ds : List Domain) : ∀ idx (rs : List Recipient),
    (sweepGo now idx ds rs).2.2 =
      ds.any fun d => d.status.pendingB && decide (now < d.expires) := by
  induction ds with
  | nil => intro idx rs; rfl
  | cons d ds ih =>
    intro idx rs
    simp only [sweepGo, sweepStep_eq, List.any_cons, ih]

theorem sweepGo_domains (now : Nat) (ds : List Domain) : ∀ idx (rs : List Recipient),
    (sweepGo now idx ds rs).1 = sweptDomains now idx rs ds := by
  induction ds with
  | nil => intro idx rs; rfl
  | cons d ds ih =>
    intro idx rs
    simp only [sweepGo, sweepStep_eq, sweptDomains, List.cons.injEq, true_and]
    by_cases he : expiresPendingB now d
    · rw [if_pos he, ih]
      exact sweptDomains_congr now ds (idx + 1) (sweepRcpts idx rs) rs
        (fun j hj => rcptHadAttempts_sweepRcpts idx j (by omega) rs)
    · rw [if_neg he, ih]

theorem sweepGo_rcpts (now : Nat) (ds : List Domain) : ∀ idx (rs : List Recipient),
    (sweepGo now idx ds rs).2.1 = rs.map (sweptRcptAt now idx ds) := by
  induction ds with
  | nil =>
    intro idx rs
    have h : sweptRcptAt now idx ([] : List Domain) = fun r => r :=
      funext (sweptRcptAt_nil now idx)
    simp [sweepGo, h]
  | cons d ds ih =>
    intro idx rs
    simp only [sweepGo, sweepStep_eq]
    by_cases he : expiresPendingB now d
    · rw [if_pos he, ih (idx + 1) (sweepRcpts idx rs)]
      simp only [sweepRcpts, List.map_map]
      have hfun : (sweptRcptAt now (idx + 1) ds ∘ sweepEntry idx) =
          sweptRcptAt now idx (d :: ds) := by
        funext r
        rw [Function.comp_apply, sweptRcptAt_cons, if_pos he]
      rw [hfun]
    · rw [if_neg he, ih (idx + 1) rs]
      have hfun : sweptRcptAt now (idx + 1) ds = sweptRcptAt now idx (d :: ds) := by
        funext r
        rw [sweptRcptAt_cons, if_neg he]
      rw [hfun]

/-! ## C2, C3, C4, C9 theorems -/

/-- Claim C2: the expiry sweep at the start of an attempt turns every Domain
with expires at or before now that is Scheduled or TemporaryFailure into
PermanentFailure, applies into_permanent to the status of every recipient of
that domain, records the never-attempted versus repeatedly-failed reason
for the Scheduled case, leaves Completed and PermanentFailure domains and
their recipients unchanged, and returns true iff some domain is still
pending and unexpired.  All of this is packaged by the spec-side images
sweptDomains / sweptRcptAt, which the source function is proved equal to. -/
theorem c2_expiry_sweep (m : Message) (now : Nat) :
    (m.has_pending_delivery now).1.domains = sweptDomains now 0 m.recipients m.domains ∧
    (m.has_pending_delivery now).1.recipients = m.recipients.map (sweptRcptAt now 0 m.domains) ∧
    (m.has_pending_delivery now).1.flags = m.flags ∧
    (m.has_pending_delivery now).2 =
      (m.domains.any fun d => d.status.pendingB && decide (now < d.expires)) ∧
    expiredNoAttemptsReason = "Message expired without any delivery attempts made." ∧
    expiredAttemptsReason = "Message delivery failed." := by
  refine ⟨?_, ?_, ?_, ?_, rfl, rfl⟩ <;>
    simp [Message.has_pending_delivery, sweepGo_domains, sweepGo_rcpts, sweepGo_pending]

/-- Claim C3: Domain::retry with a non-empty schedule sets
retry.due = now + schedule[min(old inner, len - 1)] and inner = old inner + 1;
hence inner strictly increases and due is never below now. -/
theorem c3_retry_spec (d : Domain) (now : Nat) (schedule : List Nat)
    (hne : schedule ≠ []) :
    (d.retryNow now schedule).retry.due =
        now + schedule.getD (min d.retry.inner (schedule.length - 1)) 0 ∧
    (d.retryNow now schedule).retry.inner = d.retry.inner + 1 ∧
    d.retry.inner < (d.retryNow now schedule).retry.inner ∧
    now ≤ (d.retryNow now schedule).retry.due := by
  refine ⟨rfl, rfl, ?_, ?_⟩
  · simp [Domain.retryNow]
  · simp [Domain.retryNow]

theorem c3_retry_spec_witness :
    ([60, 120] : List Nat) ≠ [] ∧
    ((⟨"example.org", .scheduled, ⟨0, 1⟩, ⟨0, 0⟩, 9⟩ : Domain).retryNow 5 [60, 120]).retry.due =
        5 + ([60, 120] : List Nat).getD (min 1 (([60, 120] : List Nat).length - 1)) 0 ∧
    ((⟨"example.org", .scheduled, ⟨0, 1⟩, ⟨0, 0⟩, 9⟩ : Domain).retryNow 5 [60, 120]).retry.inner = 2 := by
  refine ⟨by decide, ?_, ?_⟩
  · exact (c3_retry_spec ⟨"example.org", .scheduled, ⟨0, 1⟩, ⟨0, 0⟩, 9⟩ 5 [60, 120] (by decide)).1
  · exact (c3_retry_spec ⟨"example.org", .scheduled, ⟨0, 1⟩, ⟨0, 0⟩, 9⟩ 5 [60, 120] (by decide)).2.1

/-- Claim C4: Domain::set_status assigns the new status and invokes retry
(incrementing retry.inner and recomputing retry.due) iff the new status is
Scheduled or TemporaryFailure; for Completed or PermanentFailure the retry
fields are left unchanged. -/
theorem c4_set_status_spec (d : Domain) (now : Nat) (s : Status) (schedule : List Nat) :
    (d.set_status now s schedule).status = s ∧
    (s.pendingB = true →
      (d.set_status now s schedule).retry.due =
          now + schedule.getD (min d.retry.inner (schedule.length - 1)) 0 ∧
      (d.set_status now s schedule).retry.inner = d.retry.inner + 1) ∧
    (s.pendingB = false → (d.set_status now s schedule).retry = d.retry) ∧
    ((d.set_status now s schedule).retry.inner = d.retry.inner + 1 ↔ s.pendingB = true) := by
  by_cases h : s.pendingB
  · refine ⟨?_, ?_, ?_, ?_⟩ <;> simp [Domain.set_status, Domain.retryNow, h]
  · refine ⟨?_, ?_, ?_, ?_⟩ <;> simp [Domain.set_status, Domain.retryNow, h]

theorem c4_set_status_spec_witness :
    ((⟨"example.org", .scheduled, ⟨0, 3⟩, ⟨0, 0⟩, 9⟩ : Domain).set_status 5
        (.temporaryFailure (.ioError "x")) [60]).retry.inner = 4 ∧
    ((⟨"example.org", .scheduled, ⟨0, 3⟩, ⟨0, 0⟩, 9⟩ : Domain).set_status 5
        (.completed "ok") [60]).retry = (⟨0, 3⟩ : Schedule) := by
  constructor
  · exact ((c4_set_status_spec ⟨"example.org", .scheduled, ⟨0, 3⟩, ⟨0, 0⟩, 9⟩ 5
      (.temporaryFailure (.ioError "x")) [60]).2.1 (by decide)).2
  · exact (c4_set_status_spec ⟨"example.org", .scheduled, ⟨0, 3⟩, ⟨0, 0⟩, 9⟩ 5
      (.completed "ok") [60]).2.2.1 (by decide)

/-- Claim C9 (amended): the index min(inner, len - 1) is in bounds for every
non-empty schedule, the empty schedule makes Domain::retry panic, and the
call sites of deliver_task pass a non-empty schedule whenever the evaluated
retry configuration is absent (so that the one-element fallback [60s]
applies) or itself non-empty; an evaluated Some(empty) configuration defeats
the fallback. -/
theorem c9_retry_bounds (d : Domain) (now : Nat) :
    (∀ schedule : List Nat, schedule ≠ [] →
        min d.retry.inner (schedule.length - 1) < schedule.length ∧
        (d.retryNowChecked now schedule).isSome = true) ∧
    d.retryNowChecked now [] = none ∧
    (∀ o : Option (List Nat), o ≠ some [] →
        (d.retryNowChecked now (scheduleOf o)).isSome = true) := by
  have hb : ∀ schedule : List Nat, schedule ≠ [] →
      min d.retry.inner (schedule.length - 1) < schedule.length := by
    intro schedule hne
    have : 0 < schedule.length := List.length_pos.mpr hne
    omega
  refine ⟨?_, ?_, ?_⟩
  · intro schedule hne
    refine ⟨hb schedule hne, ?_⟩
    simp [Domain.retryNowChecked, List.getElem?_eq_getElem (hb schedule hne)]
  · simp [Domain.retryNowChecked]
  · intro o ho
    rcases o with _ | l
    · simp [scheduleOf, Domain.retryNowChecked]
    · have hne : l ≠ [] := by
        intro h; exact ho (by rw [h])
      have := hb l hne
      simp [scheduleOf, Domain.retryNowChecked, List.getElem?_eq_getElem this]

theorem c9_retry_bounds_witness :
    ([60] : List Nat) ≠ [] ∧
    ((⟨"example.org", .scheduled, ⟨0, 9⟩, ⟨0, 0⟩, 9⟩ : Domain).retryNowChecked 5 [60]).isSome = true ∧
    (⟨"example.org", .scheduled, ⟨0, 9⟩, ⟨0, 0⟩, 9⟩ : Domain).retryNowChecked 5 [] = none ∧
    ((⟨"example.org", .scheduled, ⟨0, 9⟩, ⟨0, 0⟩, 9⟩ : Domain).retryNowChecked 5
        (scheduleOf none)).isSome = true := by
  refine ⟨by decide, ?_, ?_, ?_⟩
  · exact ((c9_retry_bounds ⟨"example.org", .scheduled, ⟨0, 9⟩, ⟨0, 0⟩, 9⟩ 5).1 [60] (by decide)).2
  · exact (c9_retry_bounds ⟨"example.org", .scheduled, ⟨0, 9⟩, ⟨0, 0⟩, 9⟩ 5).2.1
  · exact (c9_retry_bounds ⟨"example.org", .scheduled, ⟨0, 9⟩, ⟨0, 0⟩, 9⟩ 5).2.2 none (by decide)

/-- Claim C9, counterexample to the claim as stated: the fallback to the
one-element vector only applies when the evaluated configuration is absent;
an evaluated empty configuration reaches Domain::retry, whose indexing then
panics. -/
theorem c9_counterexample :
    scheduleOf (some []) = [] ∧
    (⟨"example.org", .scheduled, ⟨0, 0⟩, ⟨0, 0⟩, 9⟩ : Domain).retryNowChecked 7
        (scheduleOf (some [])) = none := by
  constructor
  · rfl
  · rfl

/-! ## TLS strategy and policies -/

/-- Required / Optional / Disabled classification of a TLS-related policy
(common::config::smtp::queue::RequireOptional). -/
inductive RequireOptional where
  | optional
  | require
  | disable
deriving DecidableEq, Inhabited

/-- Not disabled. -/
def RequireOptional.isEnabled : RequireOptional → Bool
  | .disable => false
  | _ => true

/-- Required. -/
def RequireOptional.isRequired : RequireOptional → Bool
  | .require => true
  | _ => false

/-- TlsStrategy = (mta_sts, dane, tls), each Required / Optional / Disabled.
delivery.rs builds it with `..Default::default()` (Optional) and overrides
dane and tls per host. -/
structure TlsStrategy where
  mta_sts : RequireOptional
  dane : RequireOptional
  tls : RequireOptional
deriving DecidableEq, Inhabited

/-- Modelled from the spec: TlsStrategy::try_mta_sts (the method lives
outside src/); an MTA-STS policy is fetched unless the component is
Disabled. -/
def TlsStrategy.try_mta_sts (s : TlsStrategy) : Bool := s.mta_sts.isEnabled

/-- Modelled from the spec: TlsStrategy::is_mta_sts_required. -/
def TlsStrategy.is_mta_sts_required (s : TlsStrategy) : Bool := s.mta_sts.isRequired

/-- Modelled from the spec: TlsStrategy::try_dane. -/
def TlsStrategy.try_dane (s : TlsStrategy) : Bool := s.dane.isEnabled

/-- Modelled from the spec: TlsStrategy::is_dane_required. -/
def TlsStrategy.is_dane_required (s : TlsStrategy) : Bool := s.dane.isRequired

/-- Modelled from the spec: TlsStrategy::try_start_tls; STARTTLS is attempted
unless the tls component is Disabled (the StartTlsDisabled branch of
delivery.rs is taken when this is false). -/
def TlsStrategy.try_start_tls (s : TlsStrategy) : Bool := s.tls.isEnabled

/-- Modelled from the spec: TlsStrategy::is_tls_required; TLS is required
when any of the three components is Required. -/
def TlsStrategy.is_tls_required (s : TlsStrategy) : Bool :=
  s.tls.isRequired || s.mta_sts.isRequired || s.dane.isRequired

/-- Modelled from the spec: a fetched MTA-STS policy with its enforce flag
and its MX-pattern verifier (RFC 8461). -/
structure MtaStsPolicy where
  enforce : Bool
  verifyMx : String → Bool
deriving Inhabited

/-- Modelled from the spec: a DNSSEC-validated TLSA record set with its
has_end_entities flag (RFC 7672). -/
structure TlsaRecord where
  has_end_entities : Bool
deriving DecidableEq, Inhabited

/-- The is_strict_tls computation of deliver_task (delivery.rs lines
971-974): TLS strategy requires TLS, or the message carries REQUIRETLS, or
an MTA-STS policy or a DANE policy is present. -/
def strictTls (flags : Nat) (strat : TlsStrategy) (mtaSts : Option MtaStsPolicy)
    (dane : Option TlsaRecord) : Bool :=
  strat.is_tls_required || decide (flags.land MAIL_REQUIRETLS ≠ 0) ||
    mtaSts.isSome || dane.isSome

/-! ## Oracle records for the environment of one delivery attempt -/

/-- Result of `try_start_tls` on the SMTP client
(crate::outbound::client::StartTlsResult). -/
inductive StartTlsOutcome where
  | success
  | unavailable (resp : Option String)
  | errored (e : String)
deriving DecidableEq, Inhabited

/-- Result of the TLSA lookup for one host: Ok(Some(tlsa)), Ok(None)
(zone not DNSSEC-signed), Err(DnsRecordNotFound), or another DNS error
(already converted to the Status that `err.into()` produces). -/
inductive TlsaOutcome where
  | found (t : TlsaRecord)
  | unsigned
  | missing
  | dnsFail (st : Status)
deriving DecidableEq, Inhabited

/-- Environment choices for one remote IP of one host: rate-limiter verdicts
(one entry per remote-scoped rule, `some retry_at` meaning denial), the
connect / greeting / EHLO / STARTTLS / DANE-verify outcomes, and the result
of `message.deliver` (domain-level status plus per-recipient updates). -/
structure IpPlan where
  remoteThrottles : List (Option Nat)
  connectErr : Option Status
  implicitTlsErr : Option String
  greetingErr : Option Status
  ehloErr : Option Status
  startTls : StartTlsOutcome
  daneVerifyErr : Option Status
  deliverResult : Status
  rcptNew : Nat → Status → Status
deriving Inhabited

/-- Environment choices for one remote host: its name, whether it is an
implicit-TLS endpoint, the source/remote IP resolution outcome, the per-host
dane / tls strategy evaluation, and the TLSA lookup outcome. -/
structure HostPlan where
  hostname : String
  implicitTls : Bool
  resolveErr : Option Status
  ips : List IpPlan
  daneEval : RequireOptional
  tlsEval : RequireOptional
  tlsa : TlsaOutcome
deriving Inhabited

/-- The evaluated next-hop for a domain: no relay (use MX), an HTTP relay
(local delivery), or a relay host with its protocol-is-SMTP flag. -/
inductive NextHopChoice where
  | noRelay
  | http
  | relay (hp : HostPlan) (isSmtp : Bool)
deriving Inhabited

/-- Result of the MX lookup: records (the exchange names in preference
order), DnsRecordNotFound (implicit MX is then attempted), or another DNS
error already converted to a Status. -/
inductive MxOutcome where
  | ok (mxs : List String)
  | notFound
  | fail (st : Status)
deriving DecidableEq, Inhabited

/-- Result of the MTA-STS policy fetch. -/
inductive MtaStsOutcome where
  | ok (p : MtaStsPolicy)
  | fail (reason : String)
deriving Inhabited

/-- Environment choices for one domain of the message. -/
structure DomainPlan where
  rcptThrottles : List (Option Nat)
  nextHop : NextHopChoice
  localResult : Status
  localRcptNew : Nat → Status → Status
  mtaStsEval : RequireOptional
  mtaStsResult : MtaStsOutcome
  mxResult : MxOutcome
  maxMx : Nat
  retrySchedule : Option (List Nat)
  hostPlans : List HostPlan
deriving Inhabited

/-! ## Trace actions -/

/-- How the message body was handed to message.deliver: over TLS, in
plaintext after STARTTLS was unavailable, or in plaintext because the TLS
strategy disabled STARTTLS. -/
inductive ConnKind where
  | tlsConn
  | plainUnavailable
  | plainDisabled
deriving DecidableEq, Inhabited

/-- Observable actions of one delivery attempt.  `deliver` records the
is_strict_tls value that held when the connection was prepared. -/
inductive Act where
  | connectAttempt (host : String)
  | deliver (host : String) (kind : ConnKind) (strict : Bool)
  | deliverLocal (domainIdx : Nat)
  | rateLimitHit (retryAt : Nat)
  | saveChanges (nextDue : Nat)
  | removeMsg
deriving DecidableEq, Inhabited

/-! ## Per-IP loop (delivery.rs lines 852-1306) -/

/-- Continuation after processing one remote IP. -/
inductive IpStep where
  | tryNextIp (st : Status)
  | tryNextHost (st : Status)
  | delivered (result : Status) (rcpts : List Recipient)
  | limited (retryAt : Nat)
deriving DecidableEq, Inhabited

/-- The per-recipient status updates of message.deliver, applied to the
recipients whose domain_idx matches the current domain (the Rust
`recipients.iter_mut().filter(|r| r.domain_idx == domain_idx)`). -/
def updateRcpts (idx : Nat) (f : Nat → Status → Status) : Nat → List Recipient → List Recipient
  | _, [] => []
  | j, r :: rest =>
    (if r.domain_idx = idx then { r with status := f j r.status } else r) ::
      updateRcpts idx f (j + 1) rest

/-- One iteration of the next_ip loop: remote-IP throttles, connect,
implicit TLS or greeting / EHLO / STARTTLS, then deliver. -/
def processIp (flags : Nat) (strat : TlsStrategy) (mtaSts : Option MtaStsPolicy)
    (dane : Option TlsaRecord) (hp : HostPlan) (ip : IpPlan)
    (idx : Nat) (rcpts : List Recipient) : List Act × IpStep :=
  match ip.remoteThrottles.findSome? id with
  | some retryAt => ([.rateLimitHit retryAt], .limited retryAt)
  | none =>
    match ip.connectErr with
    | some st => ([.connectAttempt hp.hostname], .tryNextIp st)
    | none =>
      if hp.implicitTls then
        match ip.implicitTlsErr with
        | some e =>
          ([.connectAttempt hp.hostname],
           .tryNextHost (Status.from_tls_error hp.hostname e))
        | none =>
          match ip.greetingErr with
          | some st => ([.connectAttempt hp.hostname], .tryNextHost st)
          | none =>
            ([.connectAttempt hp.hostname,
              .deliver hp.hostname .tlsConn (strictTls flags strat mtaSts dane)],
             .delivered ip.deliverResult (updateRcpts idx ip.rcptNew 0 rcpts))
      else
        match ip.greetingErr with
        | some st => ([.connectAttempt hp.hostname], .tryNextHost st)
        | none =>
          match ip.ehloErr with
          | some st => ([.connectAttempt hp.hostname], .tryNextHost st)
          | none =>
            if strat.try_start_tls then
              match ip.startTls with
              | .success =>
                match dane, ip.daneVerifyErr with
                | some _, some st => ([.connectAttempt hp.hostname], .tryNextHost st)
                | _, _ =>
                  ([.connectAttempt hp.hostname,
                    .deliver hp.hostname .tlsConn (strictTls flags strat mtaSts dane)],
                   .delivered ip.deliverResult (updateRcpts idx ip.rcptNew 0 rcpts))
              | .unavailable resp =>
                if strictTls flags strat mtaSts dane then
                  ([.connectAttempt hp.hostname],
                   .tryNextHost (Status.from_starttls_error hp.hostname resp))
                else
                  ([.connectAttempt hp.hostname,
                    .deliver hp.hostname .plainUnavailable (strictTls flags strat mtaSts dane)],
                   .delivered ip.deliverResult (updateRcpts idx ip.rcptNew 0 rcpts))
              | .errored e =>
                ([.connectAttempt hp.hostname],
                 .tryNextHost (if strictTls flags strat mtaSts dane then
                     Status.from_tls_error hp.hostname e
                   else (Status.from_tls_error hp.hostname e).into_temporary))
            else
              ([.connectAttempt hp.hostname,
                .deliver hp.hostname .plainDisabled (strictTls flags strat mtaSts dane)],
               .delivered ip.deliverResult (updateRcpts idx ip.rcptNew 0 rcpts))

/-! ## Per-host loop (delivery.rs lines 586-1307) -/

/-- Continuation after processing one host. -/
inductive HostStep where
  | nextHost (st : Status)
  | delivered (result : Status) (rcpts : List Recipient)
  | limited (retryAt : Nat)
deriving DecidableEq, Inhabited

/-- The next_ip loop over the resolved remote IPs, threading last_status
(a connect error updates it and tries the next IP; greeting / EHLO / TLS
errors abort to the next host; a delivery or a rate-limit denial leaves the
loop). -/
def runIps (flags : Nat) (strat : TlsStrategy) (mtaSts : Option MtaStsPolicy)
    (dane : Option TlsaRecord) (hp : HostPlan) (idx : Nat) (rcpts : List Recipient) :
    Status → List IpPlan → List Act × HostStep
  | last, [] => ([], .nextHost last)
  | _, ip :: rest =>
    match processIp flags strat mtaSts dane hp ip idx rcpts with
    | (acts, .tryNextIp st) =>
      ((acts ++ (runIps flags strat mtaSts dane hp idx rcpts st rest).1),
       (runIps flags strat mtaSts dane hp idx rcpts st rest).2)
    | (acts, .tryNextHost st) => (acts, .nextHost st)
    | (acts, .delivered res rc) => (acts, .delivered res rc)
    | (acts, .limited t) => (acts, .limited t)

/-- The DANE policy classification for one host (delivery.rs lines
693-849): `.error st` means last_status is set to st and the host is
skipped. -/
def danePolicyOf (strat : TlsStrategy) (isSmtp : Bool) (hp : HostPlan) :
    Except Status (Option TlsaRecord) :=
  if strat.try_dane && isSmtp then
    match hp.tlsa with
    | .found t =>
      if t.has_end_entities then .ok (some t)
      else if strat.is_dane_required then
        .error (.permanentFailure (.daneError hp.hostname "No valid TLSA records were found"))
      else .ok none
    | .unsigned =>
      if strat.is_dane_required then
        .error (.permanentFailure (.daneError hp.hostname "No TLSA DNSSEC records found"))
      else .ok none
    | .missing =>
      if strat.is_dane_required then
        .error (.permanentFailure (.daneError hp.hostname "No TLSA records found"))
      else .ok none
    | .dnsFail st => if strat.is_dane_required then .error st else .ok none
  else .ok none

/-- One iteration of the next_host loop: MTA-STS verification of the MX
name, IP resolution, per-host strategy refresh, DANE lookup, then the
per-IP loop. -/
def processHost (flags : Nat) (mtaStsEval : RequireOptional) (isSmtp : Bool)
    (mtaSts : Option MtaStsPolicy) (hp : HostPlan) (idx : Nat)
    (rcpts : List Recipient) (last : Status) : List Act × HostStep :=
  match mtaSts with
  | some pol =>
    if !pol.verifyMx hp.hostname && pol.enforce then
      ([], .nextHost (.permanentFailure (.mtaStsError
          ("MX " ++ hp.hostname ++ " not authorized by policy."))))
    else
      match hp.resolveErr with
      | some st => ([], .nextHost st)
      | none =>
        match danePolicyOf ⟨mtaStsEval, hp.daneEval, hp.tlsEval⟩ isSmtp hp with
        | .error st => ([], .nextHost st)
        | .ok dane =>
          runIps flags ⟨mtaStsEval, hp.daneEval, hp.tlsEval⟩ mtaSts dane hp idx rcpts last hp.ips
  | none =>
    match hp.resolveErr with
    | some st => ([], .nextHost st)
    | none =>
      match danePolicyOf ⟨mtaStsEval, hp.daneEval, hp.tlsEval⟩ isSmtp hp with
      | .error st => ([], .nextHost st)
      | .ok dane =>
        runIps flags ⟨mtaStsEval, hp.daneEval, hp.tlsEval⟩ mtaSts dane hp idx rcpts last hp.ips

/-- Continuation after the host loop for one domain. -/
inductive DomainEnd where
  | exhausted (last : Status)
  | delivered (result : Status) (rcpts : List Recipient)
  | limited (retryAt : Nat)
deriving DecidableEq, Inhabited

/-- The next_host loop, threading last_status (initially Scheduled). -/
def runHosts (flags : Nat) (mtaStsEval : RequireOptional) (isSmtp : Bool)
    (mtaSts : Option MtaStsPolicy) (idx : Nat) (rcpts : List Recipient) :
    Status → List HostPlan → List Act × DomainEnd
  | last, [] => ([], .exhausted last)
  | last, hp :: rest =>
    match processHost flags mtaStsEval isSmtp mtaSts hp idx rcpts last with
    | (acts, .nextHost st) =>
      ((acts ++ (runHosts flags mtaStsEval isSmtp mtaSts idx rcpts st rest).1),
       (runHosts flags mtaStsEval isSmtp mtaSts idx rcpts st rest).2)
    | (acts, .delivered res rc) => (acts, .delivered res rc)
    | (acts, .limited t) => (acts, .limited t)

/-! ## Per-domain stage (delivery.rs lines 204-1315) -/

/-- Outcome tag for one domain of the per-domain loop. -/
inductive DomainOutcome where
  | notDue
  | rateLimited (retryAt : Nat)
  | statusSet (s : Status)
deriving DecidableEq, Inhabited

/-- Result of processing one domain: the updated Domain, the threaded
recipients vector, the emitted actions, and the outcome tag. -/
structure DomainResult where
  domain : Domain
  rcpts : List Recipient
  acts : List Act
  outcome : DomainOutcome
deriving DecidableEq, Inhabited

/-- The status recorded for a null-MX domain (delivery.rs lines 570-575). -/
def nullMxReason : String := "Domain does not accept messages (null MX)"

/-- Status::PermanentFailure(Error::DnsError("Domain does not accept
messages (null MX)")). -/
def nullMxStatus : Status := .permanentFailure (.dnsError nullMxReason)

/-- Modelled from the spec: conversion of an mta_sts::Error into a Status
(the From impl lives outside src/); MTA-STS failures are recorded as
temporary MTA-STS errors. -/
def mtaStsFailStatus (reason : String) : Status := .temporaryFailure (.mtaStsError reason)

/-- Modelled from the spec: ToNextHop::to_remote_hosts (outbound/lookup.rs,
not under src/).  A null MX set (the single exchange ".") yields None; an
empty MX list yields the implicit MX (the domain itself); otherwise the
first max_mx hosts. -/
def toRemoteHosts (mxs : List String) (domain : String) (maxMx : Nat) : Option (List String) :=
  if mxs.isEmpty then some [domain]
  else if mxs = ["."] then none
  else some (mxs.take maxMx)

/-- Pair the MX-derived hostnames with the per-host oracle plans. -/
def attachHostPlans (names : List String) (plans : List HostPlan) : List HostPlan :=
  names.enum.map fun p => { plans.getD p.1 default with hostname := p.2 }

/-- The MTA-STS stage of one domain (delivery.rs lines 361-487): `.error st`
means the domain is marked with st (strict MTA-STS failure) and the loop
continues with the next domain. -/
def stsOutcome (dp : DomainPlan) (isSmtp : Bool) : Except Status (Option MtaStsPolicy) :=
  if dp.mtaStsEval.isEnabled && isSmtp then
    match dp.mtaStsResult with
    | .ok p => .ok (some p)
    | .fail r => if dp.mtaStsEval.isRequired then .error (mtaStsFailStatus r) else .ok none
  else .ok none

/-- The MX stage of one domain (delivery.rs lines 489-578): when there is no
relay and the protocol is SMTP, look up MX records and convert them to
remote hosts; a null MX marks the domain as permanently failed. -/
def hostsOutcome (dp : DomainPlan) (d : Domain) (hosts0 : List HostPlan) (isSmtp : Bool) :
    Except Status (List HostPlan) :=
  if isSmtp && hosts0.isEmpty then
    match dp.mxResult with
    | .fail st => .error st
    | .notFound =>
      match toRemoteHosts [] d.domain dp.maxMx with
      | some names => .ok (attachHostPlans names dp.hostPlans)
      | none => .error nullMxStatus
    | .ok mxs =>
      match toRemoteHosts mxs d.domain dp.maxMx with
      | some names => .ok (attachHostPlans names dp.hostPlans)
      | none => .error nullMxStatus
  else .ok hosts0

/-- The tail of the per-domain loop body once the next hop is known:
MTA-STS policy, MX resolution, then the host loop; every exit funnels
through set_status or set_rate_limiter_error exactly as in deliver_task. -/
def processDomainHosts (now flags idx : Nat) (d : Domain) (rcpts : List Recipient)
    (dp : DomainPlan) (hosts0 : List HostPlan) (isSmtp : Bool) : DomainResult :=
  match stsOutcome dp isSmtp with
  | .error st =>
    ⟨d.set_status now st (scheduleOf dp.retrySchedule), rcpts, [], .statusSet st⟩
  | .ok mtaSts =>
    match hostsOutcome dp d hosts0 isSmtp with
    | .error st =>
      ⟨d.set_status now st (scheduleOf dp.retrySchedule), rcpts, [], .statusSet st⟩
    | .ok hosts =>
      match runHosts flags dp.mtaStsEval isSmtp mtaSts idx rcpts .scheduled hosts with
      | (acts, .exhausted last) =>
        ⟨d.set_status now last (scheduleOf dp.retrySchedule), rcpts, acts, .statusSet last⟩
      | (acts, .delivered res rc) =>
        ⟨d.set_status now res (scheduleOf dp.retrySchedule), rc, acts, .statusSet res⟩
      | (acts, .limited t) =>
        ⟨d.set_rate_limiter_error t, rcpts, acts, .rateLimited t⟩

/-- One iteration of the next_domain loop: the due check, the
recipient-domain throttles, the next hop (local delivery via an HTTP relay,
a relay host, or MX), and the host loop. -/
def processDomain (now flags idx : Nat) (d : Domain) (rcpts : List Recipient)
    (dp : DomainPlan) : DomainResult :=
  if !(d.status.pendingB && decide (d.retry.due ≤ now)) then ⟨d, rcpts, [], .notDue⟩
  else
    match dp.rcptThrottles.findSome? id with
    | some t => ⟨d.set_rate_limiter_error t, rcpts, [.rateLimitHit t], .rateLimited t⟩
    | none =>
      match dp.nextHop with
      | .http =>
        ⟨d.set_status now dp.localResult (scheduleOf dp.retrySchedule),
         updateRcpts idx dp.localRcptNew 0 rcpts, [.deliverLocal idx],
         .statusSet dp.localResult⟩
      | .relay hp isSmtp => processDomainHosts now flags idx d rcpts dp [hp] isSmtp
      | .noRelay => processDomainHosts now flags idx d rcpts dp [] true

/-! ## Message-level event computations and deliver_task -/

/-- Modelled from the spec: Message::next_delivery_event (queue/mod.rs, not
under src/) is the earliest retry.due among pending domains. -/
def Message.next_delivery_event (m : Message) : Nat :=
  ((m.domains.filterMap fun d => if d.status.pendingB then some d.retry.due else none).min?).getD 0

/-- Modelled from the spec: Message::next_event_after (queue/mod.rs, not
under src/) is the earliest of retry.due / notify.due / expires over pending
domains that is strictly after the given instant, if any. -/
def Message.next_event_after (m : Message) (t : Nat) : Option Nat :=
  (((m.domains.filterMap fun d =>
      if d.status.pendingB then some [d.retry.due, d.notify.due, d.expires] else none).flatten).filter
    fun v => t < v).min?

/-- Modelled from the spec: Message::next_event (queue/mod.rs, not under
src/) is the min of retry.due and notify.due across pending domains, absent
when every domain is terminal. -/
def Message.next_event (m : Message) : Option Nat :=
  (m.domains.filterMap fun d =>
    if d.status.pendingB then some (min d.retry.due d.notify.due) else none).min?

/-- Notify-schedule updates chosen by the Reporter during one send_dsn
call. -/
structure DsnPlan where
  domNotify : Nat → Schedule → Schedule
  rcptNotify : Nat → Schedule → Schedule
deriving Inhabited

/-- Modelled from the spec: the domain-side effect of send_dsn (queue/dsn.rs,
not under src/) only advances notify schedules. -/
def dsnDomains (f : Nat → Schedule → Schedule) : Nat → List Domain → List Domain
  | _, [] => []
  | j, d :: ds => { d with notify := f j d.notify } :: dsnDomains f (j + 1) ds

/-- Modelled from the spec: the recipient-side effect of send_dsn only
advances notify schedules. -/
def dsnRcpts (f : Nat → Schedule → Schedule) : Nat → List Recipient → List Recipient
  | _, [] => []
  | j, r :: rs => { r with notify := f j r.notify } :: dsnRcpts f (j + 1) rs

/-- Modelled from the spec: send_dsn dispatches the due Delivery Status
Notifications and advances the notify schedules of domains and
recipients. -/
def sendDsn (p : DsnPlan) (m : Message) : Message :=
  { m with domains := dsnDomains p.domNotify 0 m.domains,
           recipients := dsnRcpts p.rcptNotify 0 m.recipients }

/-- Environment choices for one whole delivery attempt. -/
structure MsgPlan where
  senderThrottles : List (Option Nat)
  dsn1 : DsnPlan
  dsn2 : DsnPlan
  domainPlans : List DomainPlan
deriving Inhabited

/-- The attempt outcome reported to the queue manager (QueueEventStatus;
the Locked variant is decided before deliver_task runs). -/
inductive QStatus where
  | deferred
  | completed
deriving DecidableEq, Inhabited

/-- The result of one deliver_task run: the final message record, the
reported status, and the trace of observable actions. -/
structure TaskResult where
  message : Message
  status : QStatus
  acts : List Act
deriving DecidableEq, Inhabited

/-- The next_domain loop of deliver_task, processing domains in order by
index and threading the recipients vector that was moved out of the
message. -/
def runDomains (now flags : Nat) (plans : List DomainPlan) :
    Nat → List Domain → List Recipient → List Domain × List Recipient × List Act
  | _, [], rcpts => ([], rcpts, [])
  | idx, d :: ds, rcpts =>
    ((processDomain now flags idx d rcpts (plans.getD idx default)).domain ::
        (runDomains now flags plans (idx + 1) ds
          (processDomain now flags idx d rcpts (plans.getD idx default)).rcpts).1,
     (runDomains now flags plans (idx + 1) ds
        (processDomain now flags idx d rcpts (plans.getD idx default)).rcpts).2.1,
     (processDomain now flags idx d rcpts (plans.getD idx default)).acts ++
        (runDomains now flags plans (idx + 1) ds
          (processDomain now flags idx d rcpts (plans.getD idx default)).rcpts).2.2)

/-- The message state after the expiry sweep and the first send_dsn call. -/
def postDsn (now : Nat) (mp : MsgPlan) (m0 : Message) : Message :=
  sendDsn mp.dsn1 (m0.has_pending_delivery now).1

/-- The per-domain phase and the final persistence decision of deliver_task
(delivery.rs lines 201-1348). -/
def domainPhase (now : Nat) (mp : MsgPlan) (m2 : Message) : TaskResult :=
  match runDomains now m2.flags mp.domainPlans 0 m2.domains m2.recipients with
  | (ds, rs, acts) =>
    match (sendDsn mp.dsn2 { m2 with domains := ds, recipients := rs }).next_event with
    | some due =>
      ⟨sendDsn mp.dsn2 { m2 with domains := ds, recipients := rs }, .deferred,
       acts ++ [.saveChanges due]⟩
    | none =>
      ⟨sendDsn mp.dsn2 { m2 with domains := ds, recipients := rs }, .completed,
       acts ++ [.removeMsg]⟩

/-- Embeds deliver_task (delivery.rs lines 146-1349): expiry sweep, DSN
emission, early exits, sender throttle, per-domain loop, final DSN emission
and persistence. -/
def deliverTask (now : Nat) (mp : MsgPlan) (m0 : Message) : TaskResult :=
  if (m0.has_pending_delivery now).2 then
    if now < (postDsn now mp m0).next_delivery_event then
      ⟨postDsn now mp m0, .deferred, [.saveChanges (postDsn now mp m0).next_delivery_event]⟩
    else
      match mp.senderThrottles.findSome? id with
      | some retryAt =>
        ⟨postDsn now mp m0, .deferred,
         [.saveChanges (min retryAt (((postDsn now mp m0).next_event_after now).getD UMAX))]⟩
      | none => domainPhase now mp (postDsn now mp m0)
  else ⟨postDsn now mp m0, .completed, [.removeMsg]⟩

/-! ## Plaintext-delivery analysis (claim C1) -/

/-- No deliver action in the act list uses the plaintext
STARTTLS-unavailable path while is_strict_tls held. -/
def noStrictPlainU (acts : List Act) : Prop :=
  ∀ h s, Act.deliver h ConnKind.plainUnavailable s ∈ acts → s = false

theorem noStrictPlainU_nil : noStrictPlainU [] := by
  intro h s hm
  simp at hm

theorem noStrictPlainU_append {a b : List Act} (ha : noStrictPlainU a) (hb : noStrictPlainU b) :
    noStrictPlainU (a ++ b) := by
  intro h s hm
  rcases List.mem_append.mp hm with hm | hm
  · exact ha h s hm
  · exact hb h s hm

theorem processIp_noStrictPlainU (flags : Nat) (strat : TlsStrategy)
    (mtaSts : Option MtaStsPolicy) (dane : Option TlsaRecord) (hp : HostPlan)
    (ip : IpPlan) (idx : Nat) (rcpts : List Recipient) :
    noStrictPlainU (processIp flags strat mtaSts dane hp ip idx rcpts).1 := by
  intro h s hm
  unfold processIp at hm
  repeat' split at hm
  all_goals simp_all [List.mem_cons]

theorem runIps_noStrictPlainU (flags : Nat) (strat : TlsStrategy)
    (mtaSts : Option MtaStsPolicy) (dane : Option TlsaRecord) (hp : HostPlan)
    (idx : Nat) (rcpts : List Recipient) (ips : List IpPlan) :
    ∀ last, noStrictPlainU (runIps flags strat mtaSts dane hp idx rcpts last ips).1 := by
  induction ips with
  | nil => intro last; exact noStrictPlainU_nil
  | cons ip rest ih =>
    intro last
    have hpi := processIp_noStrictPlainU flags strat mtaSts dane hp ip idx rcpts
    unfold runIps
    split
    next acts st heq =>
      refine noStrictPlainU_append ?_ (ih st)
      rw [show acts = (processIp flags strat mtaSts dane hp ip idx rcpts).1 from by rw [heq]]
      exact hpi
    next acts st heq =>
      rw [show acts = (processIp flags strat mtaSts dane hp ip idx rcpts).1 from by rw [heq]]
      exact hpi
    next acts res rc heq =>
      rw [show acts = (processIp flags strat mtaSts dane hp ip idx rcpts).1 from by rw [heq]]
      exact hpi
    next acts t heq =>
      rw [show acts = (processIp flags strat mtaSts dane hp ip idx rcpts).1 from by rw [heq]]
      exact hpi

theorem processHost_noStrictPlainU (flags : Nat) (mtaStsEval : RequireOptional)
    (isSmtp : Bool) (mtaSts : Option MtaStsPolicy) (hp : HostPlan) (idx : Nat)
    (rcpts : List Recipient) (last : Status) :
    noStrictPlainU (processHost flags mtaStsEval isSmtp mtaSts hp idx rcpts last).1 := by
  unfold processHost
  repeat' split
  all_goals first
    | exact noStrictPlainU_nil
    | exact runIps_noStrictPlainU _ _ _ _ _ _ _ _ _

theorem runHosts_noStrictPlainU (flags : Nat) (mtaStsEval : RequireOptional)
    (isSmtp : Bool) (mtaSts : Option MtaStsPolicy) (idx : Nat)
    (rcpts : List Recipient) (hosts : List HostPlan) :
    ∀ last, noStrictPlainU (runHosts flags mtaStsEval isSmtp mtaSts idx rcpts last hosts).1 := by
  induction hosts with
  | nil => intro last; exact noStrictPlainU_nil
  | cons hp rest ih =>
    intro last
    have hph := processHost_noStrictPlainU flags mtaStsEval isSmtp mtaSts hp idx rcpts last
    unfold runHosts
    split
    next acts st heq =>
      refine noStrictPlainU_append ?_ (ih st)
      rw [show acts = (processHost flags mtaStsEval isSmtp mtaSts hp idx rcpts last).1 from by
        rw [heq]]
      exact hph
    next acts res rc heq =>
      rw [show acts = (processHost flags mtaStsEval isSmtp mtaSts hp idx rcpts last).1 from by
        rw [heq]]
      exact hph
    next acts t heq =>
      rw [show acts = (processHost flags mtaStsEval isSmtp mtaSts hp idx rcpts last).1 from by
        rw [heq]]
      exact hph

theorem processDomainHosts_noStrictPlainU (now flags idx : Nat) (d : Domain)
    (rcpts : List Recipient) (dp : DomainPlan) (hosts0 : List HostPlan) (isSmtp : Bool) :
    noStrictPlainU (processDomainHosts now flags idx d rcpts dp hosts0 isSmtp).acts := by
  unfold processDomainHosts
  split
  · exact noStrictPlainU_nil
  next mtaSts hsts =>
    split
    · exact noStrictPlainU_nil
    next hosts hh =>
      split
      next acts last heq =>
        intro h s hm
        refine runHosts_noStrictPlainU flags dp.mtaStsEval isSmtp mtaSts idx rcpts hosts
          Status.scheduled h s ?_
        rw [congrArg Prod.fst heq]
        exact hm
      next acts res rc heq =>
        intro h s hm
        refine runHosts_noStrictPlainU flags dp.mtaStsEval isSmtp mtaSts idx rcpts hosts
          Status.scheduled h s ?_
        rw [congrArg Prod.fst heq]
        exact hm
      next acts t heq =>
        intro h s hm
        refine runHosts_noStrictPlainU flags dp.mtaStsEval isSmtp mtaSts idx rcpts hosts
          Status.scheduled h s ?_
        rw [congrArg Prod.fst heq]
        exact hm

theorem processDomain_noStrictPlainU (now flags idx : Nat) (d : Domain)
    (rcpts : List Recipient) (dp : DomainPlan) :
    noStrictPlainU (processDomain now flags idx d rcpts dp).acts := by
  unfold processDomain
  repeat' split
  all_goals first
    | exact processDomainHosts_noStrictPlainU _ _ _ _ _ _ _ _
    | (intro h s hm; simp_all [List.mem_cons])

theorem runDomains_noStrictPlainU (now flags : Nat) (plans : List DomainPlan)
    (ds : List Domain) : ∀ idx rcpts,
    noStrictPlainU (runDomains now flags plans idx ds rcpts).2.2 := by
  induction ds with
  | nil => intro idx rcpts; exact noStrictPlainU_nil
  | cons d rest ih =>
    intro idx rcpts
    unfold runDomains
    exact noStrictPlainU_append (processDomain_noStrictPlainU _ _ _ _ _ _) (ih _ _)

theorem domainPhase_noStrictPlainU (now : Nat) (mp : MsgPlan) (m2 : Message) :
    noStrictPlainU (domainPhase now mp m2).acts := by
  unfold domainPhase
  split
  next ds rs acts hds =>
    have hacts : (runDomains now m2.flags mp.domainPlans 0 m2.domains m2.recipients).2.2
        = acts := by rw [hds]
    split
    all_goals
      intro h s hm
      rcases List.mem_append.mp hm with hm2 | hm2
      · refine runDomains_noStrictPlainU now m2.flags mp.domainPlans m2.domains 0
          m2.recipients h s ?_
        rw [hacts]
        exact hm2
      · simp at hm2

theorem deliverTask_noStrictPlainU (now : Nat) (mp : MsgPlan) (m0 : Message) :
    noStrictPlainU (deliverTask now mp m0).acts := by
  unfold deliverTask
  repeat' split
  all_goals first
    | exact domainPhase_noStrictPlainU _ _ _
    | (intro h s hm; simp_all [List.mem_cons])

/-! ## Concrete runs used by the C1 artifacts -/

/-- An identity DSN plan (no notify schedule changes). -/
def dsnId : DsnPlan := { domNotify := fun _ s => s, rcptNotify := fun _ s => s }

/-- An IP whose session succeeds end to end. -/
def c1IpOk : IpPlan :=
  { remoteThrottles := [], connectErr := none, implicitTlsErr := none,
    greetingErr := none, ehloErr := none, startTls := .success,
    daneVerifyErr := none, deliverResult := .completed "250 2.0.0 OK",
    rcptNew := fun _ _ => .completed "250 2.0.0 OK" }

/-- A relay host whose TLS strategy disables STARTTLS. -/
def c1HostDisabled : HostPlan :=
  { hostname := "relay.example.org", implicitTls := false, resolveErr := none,
    ips := [c1IpOk], daneEval := .disable, tlsEval := .disable, tlsa := .missing }

/-- The same relay host with STARTTLS enabled (optional). -/
def c1HostTls : HostPlan := { c1HostDisabled with tlsEval := .optional }

/-- A one-domain, one-recipient message carrying the REQUIRETLS flag. -/
def c1Msg : Message :=
  { flags := MAIL_REQUIRETLS,
    domains := [⟨"example.org", .scheduled, ⟨0, 0⟩, ⟨5000, 0⟩, 5000⟩],
    recipients := [⟨"a@example.org", 0, .scheduled, ⟨5000, 0⟩, 0, none⟩] }

/-- Domain plan delivering through the STARTTLS-disabled relay. -/
def c1DomainPlanDisabled : DomainPlan :=
  { rcptThrottles := [], nextHop := .relay c1HostDisabled true,
    localResult := .scheduled, localRcptNew := fun _ s => s,
    mtaStsEval := .disable, mtaStsResult := .fail "unused",
    mxResult := .notFound, maxMx := 5, retrySchedule := none, hostPlans := [] }

/-- Attempt plan delivering through the STARTTLS-disabled relay. -/
def c1PlanDisabled : MsgPlan :=
  { senderThrottles := [], dsn1 := dsnId, dsn2 := dsnId,
    domainPlans := [c1DomainPlanDisabled] }

/-- Attempt plan delivering through the STARTTLS-enabled relay. -/
def c1PlanTls : MsgPlan :=
  { senderThrottles := [], dsn1 := dsnId, dsn2 := dsnId,
    domainPlans := [{ c1DomainPlanDisabled with nextHop := .relay c1HostTls true }] }

/-- Claim C1, counterexample to the claim as stated: a REQUIRETLS message
(is_strict_tls holds at the host) is delivered over a plaintext connection
when the TLS strategy disables STARTTLS — the StartTlsDisabled branch of
deliver_task calls deliver on the non-TLS client with no strictness
check. -/
theorem c1_counterexample :
    Act.deliver "relay.example.org" ConnKind.plainDisabled true ∈
      (deliverTask 100 c1PlanDisabled c1Msg).acts := by
  decide

/-- Claim C1 (amended): if is_strict_tls holds when the connection is
prepared, the message is never delivered in plaintext through the
STARTTLS-unavailable path (that path is guarded by is_strict_tls); the
plaintext path that remains reachable under is_strict_tls is the one where
the TLS strategy disables STARTTLS (try_start_tls() false). -/
theorem c1_strict_no_plaintext_on_unavailable (now : Nat) (mp : MsgPlan) (m0 : Message)
    (h : String) (k : ConnKind)
    (hmem : Act.deliver h k true ∈ (deliverTask now mp m0).acts) :
    k ≠ ConnKind.plainUnavailable := by
  intro hk
  subst hk
  exact absurd (deliverTask_noStrictPlainU now mp m0 h true hmem) (by decide)

theorem c1_strict_no_plaintext_on_unavailable_witness :
    Act.deliver "relay.example.org" ConnKind.tlsConn true ∈
      (deliverTask 100 c1PlanTls c1Msg).acts ∧
    ConnKind.tlsConn ≠ ConnKind.plainUnavailable :=
  ⟨by decide,
   c1_strict_no_plaintext_on_unavailable 100 c1PlanTls c1Msg "relay.example.org"
     ConnKind.tlsConn (by decide)⟩

/-! ## Claim C5: null MX -/

/-- Claim C5: when a domain is due, no recipient-domain throttle denies, no
relay is configured, the MTA-STS stage does not deflect, the MX lookup
succeeds, and to_remote_hosts returns None (null MX), deliver_task marks the
Domain PermanentFailure with a DNS error whose reason contains "null MX" via
set_status and continues with the next domain, emitting no SmtpClient
connect attempt for that domain. -/
theorem c5_null_mx (now flags idx : Nat) (d : Domain) (rcpts : List Recipient)
    (dp : DomainPlan) (mxs : List String)
    (hpend : d.status.pendingB = true) (hdue : d.retry.due ≤ now)
    (hth : dp.rcptThrottles.findSome? id = none)
    (hhop : dp.nextHop = .noRelay)
    (hsts : (stsOutcome dp true).isOk = true)
    (hmx : dp.mxResult = .ok mxs)
    (hnull : toRemoteHosts mxs d.domain dp.maxMx = none) :
    processDomain now flags idx d rcpts dp =
      ⟨d.set_status now nullMxStatus (scheduleOf dp.retrySchedule), rcpts, [],
       .statusSet nullMxStatus⟩ ∧
    (∀ h, Act.connectAttempt h ∉ (processDomain now flags idx d rcpts dp).acts) ∧
    nullMxStatus = .permanentFailure (.dnsError nullMxReason) ∧
    nullMxReason = "Domain does not accept messages (" ++ "null MX" ++ ")" := by
  have hmain : processDomain now flags idx d rcpts dp =
      ⟨d.set_status now nullMxStatus (scheduleOf dp.retrySchedule), rcpts, [],
       .statusSet nullMxStatus⟩ := by
    rcases hok : stsOutcome dp true with st | pol
    · rw [hok] at hsts
      simp [Except.isOk, Except.toBool] at hsts
    · unfold processDomain processDomainHosts hostsOutcome
      simp [hpend, hdue, hth, hhop, hok, hmx, hnull]
  refine ⟨hmain, ?_, rfl, by decide⟩
  intro h hmem
  rw [hmain] at hmem
  simp at hmem

theorem c5_null_mx_witness :
    processDomain 100 0 0 ⟨"nullmx.example.org", .scheduled, ⟨0, 0⟩, ⟨0, 0⟩, 5000⟩ []
        { rcptThrottles := [], nextHop := .noRelay, localResult := .scheduled,
          localRcptNew := fun _ s => s, mtaStsEval := .disable,
          mtaStsResult := .fail "unused", mxResult := .ok ["."], maxMx := 5,
          retrySchedule := none, hostPlans := [] } =
      ⟨(⟨"nullmx.example.org", .scheduled, ⟨0, 0⟩, ⟨0, 0⟩, 5000⟩ : Domain).set_status 100
         nullMxStatus (scheduleOf none), [], [], .statusSet nullMxStatus⟩ ∧
    nullMxReason = "Domain does not accept messages (" ++ "null MX" ++ ")" :=
  ⟨(c5_null_mx 100 0 0 ⟨"nullmx.example.org", .scheduled, ⟨0, 0⟩, ⟨0, 0⟩, 5000⟩ []
      { rcptThrottles := [], nextHop := .noRelay, localResult := .scheduled,
        localRcptNew := fun _ s => s, mtaStsEval := .disable,
        mtaStsResult := .fail "unused", mxResult := .ok ["."], maxMx := 5,
        retrySchedule := none, hostPlans := [] } ["."]
      (by decide) (by decide) (by decide) rfl (by decide) (by decide) (by decide)).1,
   (c5_null_mx 100 0 0 ⟨"nullmx.example.org", .scheduled, ⟨0, 0⟩, ⟨0, 0⟩, 5000⟩ []
      { rcptThrottles := [], nextHop := .noRelay, localResult := .scheduled,
        localRcptNew := fun _ s => s, mtaStsEval := .disable,
        mtaStsResult := .fail "unused", mxResult := .ok ["."], maxMx := 5,
        retrySchedule := none, hostPlans := [] } ["."]
      (by decide) (by decide) (by decide) rfl (by decide) (by decide) (by decide)).2.2.2⟩

/-! ## Claim C6: rate-limit denial never advances retry.inner -/

/-- Claim C6: whenever a recipient-domain-scoped or remote-IP-scoped
rate-limit rule denies delivery (the domain outcome is rateLimited
retry_at), the Domain is updated with set_rate_limiter_error(retry_at), the
recipients are untouched, and retry.inner is unchanged. -/
theorem c6_rate_limit_no_increment (now flags idx : Nat) (d : Domain)
    (rcpts : List Recipient) (dp : DomainPlan) (t : Nat)
    (hout : (processDomain now flags idx d rcpts dp).outcome = .rateLimited t) :
    (processDomain now flags idx d rcpts dp).domain = d.set_rate_limiter_error t ∧
    (processDomain now flags idx d rcpts dp).domain.retry.inner = d.retry.inner ∧
    (processDomain now flags idx d rcpts dp).rcpts = rcpts := by
  have hmain : (processDomain now flags idx d rcpts dp).domain = d.set_rate_limiter_error t ∧
      (processDomain now flags idx d rcpts dp).rcpts = rcpts := by
    unfold processDomain at hout ⊢
    split at hout
    · simp_all
    · split at hout
      · simp_all
      · split at hout
        · simp_all
        all_goals
          unfold processDomainHosts at hout ⊢
          split at hout
          · simp_all
          · split at hout
            · simp_all
            · split at hout <;> simp_all
  refine ⟨hmain.1, ?_, hmain.2⟩
  rw [hmain.1]
  rfl

theorem c6_rate_limit_no_increment_witness :
    (processDomain 100 0 0 ⟨"example.org", .scheduled, ⟨0, 4⟩, ⟨0, 0⟩, 5000⟩ []
        { rcptThrottles := [some 400], nextHop := .noRelay, localResult := .scheduled,
          localRcptNew := fun _ s => s, mtaStsEval := .disable,
          mtaStsResult := .fail "unused", mxResult := .notFound, maxMx := 5,
          retrySchedule := none, hostPlans := [] }).domain =
      (⟨"example.org", .scheduled, ⟨0, 4⟩, ⟨0, 0⟩, 5000⟩ : Domain).set_rate_limiter_error 400 ∧
    (processDomain 100 0 0 ⟨"example.org", .scheduled, ⟨0, 4⟩, ⟨0, 0⟩, 5000⟩ []
        { rcptThrottles := [some 400], nextHop := .noRelay, localResult := .scheduled,
          localRcptNew := fun _ s => s, mtaStsEval := .disable,
          mtaStsResult := .fail "unused", mxResult := .notFound, maxMx := 5,
          retrySchedule := none, hostPlans := [] }).domain.retry.inner = 4 :=
  ⟨(c6_rate_limit_no_increment 100 0 0 ⟨"example.org", .scheduled, ⟨0, 4⟩, ⟨0, 0⟩, 5000⟩ []
      { rcptThrottles := [some 400], nextHop := .noRelay, localResult := .scheduled,
        localRcptNew := fun _ s => s, mtaStsEval := .disable,
        mtaStsResult := .fail "unused", mxResult := .notFound, maxMx := 5,
        retrySchedule := none, hostPlans := [] } 400 (by decide)).1,
   (c6_rate_limit_no_increment 100 0 0 ⟨"example.org", .scheduled, ⟨0, 4⟩, ⟨0, 0⟩, 5000⟩ []
      { rcptThrottles := [some 400], nextHop := .noRelay, localResult := .scheduled,
        localRcptNew := fun _ s => s, mtaStsEval := .disable,
        mtaStsResult := .fail "unused", mxResult := .notFound, maxMx := 5,
        retrySchedule := none, hostPlans := [] } 400 (by decide)).2.1⟩

/-! ## Claim C8: TLS handshake error statuses -/

/-- Claim C8: on the opportunistic session, a STARTTLS handshake error sets
last_status to from_tls_error when is_strict_tls holds and to
from_tls_error(...).into_temporary() otherwise, skipping the host; on the
implicit-TLS session, a handshake error sets last_status to from_tls_error
without into_temporary regardless of strictness, also skipping the host. -/
theorem c8_tls_error_statuses (flags : Nat) (strat : TlsStrategy)
    (mtaSts : Option MtaStsPolicy) (dane : Option TlsaRecord) (hp : HostPlan)
    (ip : IpPlan) (idx : Nat) (rcpts : List Recipient)
    (hth : ip.remoteThrottles.findSome? id = none) (hconn : ip.connectErr = none) :
    (hp.implicitTls = false → ip.greetingErr = none → ip.ehloErr = none →
      strat.try_start_tls = true → ∀ e, ip.startTls = .errored e →
      (processIp flags strat mtaSts dane hp ip idx rcpts).2 =
        .tryNextHost (if strictTls flags strat mtaSts dane then
            Status.from_tls_error hp.hostname e
          else (Status.from_tls_error hp.hostname e).into_temporary)) ∧
    (hp.implicitTls = true → ∀ e, ip.implicitTlsErr = some e →
      (processIp flags strat mtaSts dane hp ip idx rcpts).2 =
        .tryNextHost (Status.from_tls_error hp.hostname e)) := by
  constructor
  · intro himp hgr heh hts e herr
    unfold processIp
    rw [hth, hconn, himp, hgr, heh, hts, herr]
    simp
  · intro himp e herr
    unfold processIp
    rw [hth, hconn, himp, herr]
    simp

theorem c8_tls_error_statuses_witness :
    (processIp 0 ⟨.optional, .optional, .optional⟩ none none
        { hostname := "mx.example.org", implicitTls := false, resolveErr := none,
          ips := [], daneEval := .optional, tlsEval := .optional, tlsa := .missing }
        { remoteThrottles := [], connectErr := none, implicitTlsErr := none,
          greetingErr := none, ehloErr := none, startTls := .errored "handshake failed",
          daneVerifyErr := none, deliverResult := .scheduled, rcptNew := fun _ s => s }
        0 []).2 =
      .tryNextHost ((Status.from_tls_error "mx.example.org" "handshake failed").into_temporary) ∧
    (processIp 0 ⟨.optional, .optional, .optional⟩ none none
        { hostname := "mx.example.org", implicitTls := true, resolveErr := none,
          ips := [], daneEval := .optional, tlsEval := .optional, tlsa := .missing }
        { remoteThrottles := [], connectErr := none, implicitTlsErr := some "handshake failed",
          greetingErr := none, ehloErr := none, startTls := .success,
          daneVerifyErr := none, deliverResult := .scheduled, rcptNew := fun _ s => s }
        0 []).2 =
      .tryNextHost (Status.from_tls_error "mx.example.org" "handshake failed") := by
  constructor
  · have h := (c8_tls_error_statuses 0 ⟨.optional, .optional, .optional⟩ none none
      { hostname := "mx.example.org", implicitTls := false, resolveErr := none,
        ips := [], daneEval := .optional, tlsEval := .optional, tlsa := .missing }
      { remoteThrottles := [], connectErr := none, implicitTlsErr := none,
        greetingErr := none, ehloErr := none, startTls := .errored "handshake failed",
        daneVerifyErr := none, deliverResult := .scheduled, rcptNew := fun _ s => s }
      0 [] (by decide) (by decide)).1 (by decide) (by decide) (by decide) (by decide)
      "handshake failed" (by decide)
    rw [h]
    decide
  · exact (c8_tls_error_statuses 0 ⟨.optional, .optional, .optional⟩ none none
      { hostname := "mx.example.org", implicitTls := true, resolveErr := none,
        ips := [], daneEval := .optional, tlsEval := .optional, tlsa := .missing }
      { remoteThrottles := [], connectErr := none, implicitTlsErr := some "handshake failed",
        greetingErr := none, ehloErr := none, startTls := .success,
        daneVerifyErr := none, deliverResult := .scheduled, rcptNew := fun _ s => s }
      0 [] (by decide) (by decide)).2 (by decide) "handshake failed" (by decide)

/-! ## Claim C7: sender throttle -/

/-- Claim C7: when the message still has pending deliveries that are due and
a sender-scoped rate-limit rule denies the message (first denial retry_at),
deliver_task persists the message with next queue event
min(retry_at, next_event_after(now) or u64::MAX) and returns Deferred, with
no domain processed. -/
theorem c7_sender_throttle_defer (now : Nat) (mp : MsgPlan) (m0 : Message) (retryAt : Nat)
    (hpend : (m0.has_pending_delivery now).2 = true)
    (hdue : (postDsn now mp m0).next_delivery_event ≤ now)
    (hth : mp.senderThrottles.findSome? id = some retryAt) :
    deliverTask now mp m0 =
      ⟨postDsn now mp m0, .deferred,
       [.saveChanges (min retryAt (((postDsn now mp m0).next_event_after now).getD UMAX))]⟩ := by
  unfold deliverTask
  rw [hpend, if_pos rfl, if_neg (Nat.not_lt.mpr hdue), hth]

/-- A one-domain message with no flags, used by the C7 witness. -/
def c7Msg : Message :=
  { flags := 0,
    domains := [⟨"example.org", .scheduled, ⟨0, 0⟩, ⟨5000, 0⟩, 5000⟩],
    recipients := [⟨"a@example.org", 0, .scheduled, ⟨5000, 0⟩, 0, none⟩] }

/-- An attempt plan whose first sender throttle denies with retry_at 300. -/
def c7Plan : MsgPlan :=
  { senderThrottles := [some 300], dsn1 := dsnId, dsn2 := dsnId, domainPlans := [] }

theorem c7_sender_throttle_defer_witness :
    deliverTask 100 c7Plan c7Msg =
      ⟨postDsn 100 c7Plan c7Msg, .deferred,
       [.saveChanges (min 300 (((postDsn 100 c7Plan c7Msg).next_event_after 100).getD UMAX))]⟩ :=
  c7_sender_throttle_defer 100 c7Plan c7Msg 300 (by decide) (by decide) (by decide)

/-! ## Claim C10: recipients frame -/

/-- The recipient fields that deliver_task must not alter: address_lcase,
domain_idx, orcpt and the DSN request flags (only status and notify may
change). -/
def rcptKey (r : Recipient) : String × Nat × Option String × Nat :=
  (r.address_lcase, r.domain_idx, r.orcpt, r.flags)

theorem rcptKey_updateRcpts (idx : Nat) (f : Nat → Status → Status) :
    ∀ j (rs : List Recipient), (updateRcpts idx f j rs).map rcptKey = rs.map rcptKey := by
  intro j rs
  induction rs generalizing j with
  | nil => rfl
  | cons r rest ih =>
    simp only [updateRcpts, List.map_cons, ih]
    congr 1
    split <;> rfl

theorem rcptKey_dsnRcpts (f : Nat → Schedule → Schedule) :
    ∀ j (rs : List Recipient), (dsnRcpts f j rs).map rcptKey = rs.map rcptKey := by
  intro j rs
  induction rs generalizing j with
  | nil => rfl
  | cons r rest ih =>
    simp only [dsnRcpts, List.map_cons, ih, rcptKey]

theorem rcptKey_sweptRcptAt (now idx : Nat) (ds : List Domain) (r : Recipient) :
    rcptKey (sweptRcptAt now idx ds r) = rcptKey r := by
  unfold sweptRcptAt
  repeat' split
  all_goals rfl

theorem processIp_rcptKey (flags : Nat) (strat : TlsStrategy) (mtaSts : Option MtaStsPolicy)
    (dane : Option TlsaRecord) (hp : HostPlan) (ip : IpPlan) (idx : Nat)
    (rcpts : List Recipient) (res : Status) (rc : List Recipient)
    (hstep : (processIp flags strat mtaSts dane hp ip idx rcpts).2 = .delivered res rc) :
    rc.map rcptKey = rcpts.map rcptKey := by
  unfold processIp at hstep
  repeat' split at hstep
  all_goals first
    | (have h2 : IpStep.delivered ip.deliverResult (updateRcpts idx ip.rcptNew 0 rcpts) =
           IpStep.delivered res rc := hstep
       injection h2 with e1 e2
       subst e2
       exact rcptKey_updateRcpts idx ip.rcptNew 0 rcpts)
    | simp at hstep

theorem runIps_rcptKey (flags : Nat) (strat : TlsStrategy) (mtaSts : Option MtaStsPolicy)
    (dane : Option TlsaRecord) (hp : HostPlan) (idx : Nat) (rcpts : List Recipient)
    (ips : List IpPlan) :
    ∀ last res rc,
      (runIps flags strat mtaSts dane hp idx rcpts last ips).2 = .delivered res rc →
      rc.map rcptKey = rcpts.map rcptKey := by
  induction ips with
  | nil =>
    intro last res rc h
    simp [runIps] at h
  | cons ip rest ih =>
    intro last res rc h
    unfold runIps at h
    split at h
    next acts st heq => exact ih st res rc h
    next acts st heq => simp at h
    next acts res2 rc2 heq =>
      have h2 : HostStep.delivered res2 rc2 = HostStep.delivered res rc := h
      injection h2 with e1 e2
      subst e1
      subst e2
      exact processIp_rcptKey flags strat mtaSts dane hp ip idx rcpts res2 rc2
        (congrArg Prod.snd heq)
    next acts t heq => simp at h

theorem processHost_rcptKey (flags : Nat) (mtaStsEval : RequireOptional) (isSmtp : Bool)
    (mtaSts : Option MtaStsPolicy) (hp : HostPlan) (idx : Nat) (rcpts : List Recipient)
    (last : Status) (res : Status) (rc : List Recipient)
    (h : (processHost flags mtaStsEval isSmtp mtaSts hp idx rcpts last).2 = .delivered res rc) :
    rc.map rcptKey = rcpts.map rcptKey := by
  unfold processHost at h
  repeat' split at h
  all_goals first
    | simp at h
    | exact runIps_rcptKey _ _ _ _ _ _ _ _ _ _ _ h

theorem runHosts_rcptKey (flags : Nat) (mtaStsEval : RequireOptional) (isSmtp : Bool)
    (mtaSts : Option MtaStsPolicy) (idx : Nat) (rcpts : List Recipient)
    (hosts : List HostPlan) :
    ∀ last res rc,
      (runHosts flags mtaStsEval isSmtp mtaSts idx rcpts last hosts).2 = .delivered res rc →
      rc.map rcptKey = rcpts.map rcptKey := by
  induction hosts with
  | nil =>
    intro last res rc h
    simp [runHosts] at h
  | cons hp rest ih =>
    intro last res rc h
    unfold runHosts at h
    split at h
    next acts st heq => exact ih st res rc h
    next acts res2 rc2 heq =>
      have h2 : DomainEnd.delivered res2 rc2 = DomainEnd.delivered res rc := h
      injection h2 with e1 e2
      subst e1
      subst e2
      exact processHost_rcptKey flags mtaStsEval isSmtp mtaSts hp idx rcpts last res2 rc2
        (congrArg Prod.snd heq)
    next acts t heq => simp at h

theorem processDomainHosts_rcptKey (now flags idx : Nat) (d : Domain)
    (rcpts : List Recipient) (dp : DomainPlan) (hosts0 : List HostPlan) (isSmtp : Bool) :
    (processDomainHosts now flags idx d rcpts dp hosts0 isSmtp).rcpts.map rcptKey =
      rcpts.map rcptKey := by
  unfold processDomainHosts
  repeat' split
  all_goals first
    | rfl
    | (rename_i heq; exact runHosts_rcptKey _ _ _ _ _ _ _ _ _ _ (congrArg Prod.snd heq))

theorem processDomain_rcptKey (now flags idx : Nat) (d : Domain)
    (rcpts : List Recipient) (dp : DomainPlan) :
    (processDomain now flags idx d rcpts dp).rcpts.map rcptKey = rcpts.map rcptKey := by
  unfold processDomain
  repeat' split
  all_goals first
    | rfl
    | exact rcptKey_updateRcpts idx dp.localRcptNew 0 rcpts
    | exact processDomainHosts_rcptKey _ _ _ _ _ _ _ _

theorem runDomains_rcptKey (now flags : Nat) (plans : List DomainPlan) (ds : List Domain) :
    ∀ idx (rcpts : List Recipient),
      (runDomains now flags plans idx ds rcpts).2.1.map rcptKey = rcpts.map rcptKey := by
  induction ds with
  | nil => intro idx rcpts; rfl
  | cons d rest ih =>
    intro idx rcpts
    simp only [runDomains]
    rw [ih]
    exact processDomain_rcptKey _ _ _ _ _ _

theorem domainPhase_rcptKey (now : Nat) (mp : MsgPlan) (m2 : Message) :
    (domainPhase now mp m2).message.recipients.map rcptKey = m2.recipients.map rcptKey := by
  unfold domainPhase
  split
  next ds rs acts hds =>
    have hrs : rs.map rcptKey = m2.recipients.map rcptKey := by
      have h := runDomains_rcptKey now m2.flags mp.domainPlans m2.domains 0 m2.recipients
      rw [show (runDomains now m2.flags mp.domainPlans 0 m2.domains m2.recipients).2.1 = rs
        from by rw [hds]] at h
      exact h
    split
    all_goals
      simp only [sendDsn]
      rw [rcptKey_dsnRcpts]
      exact hrs

/-- Claim C10: the record that deliver_task finally saves or removes
contains exactly the original recipients, in order, with address_lcase,
domain_idx, orcpt and the DSN flags unchanged; only status and notify may
differ. -/
theorem c10_recipients_frame (now : Nat) (mp : MsgPlan) (m0 : Message) :
    (deliverTask now mp m0).message.recipients.map rcptKey =
      m0.recipients.map rcptKey := by
  have hsweep : (m0.has_pending_delivery now).1.recipients.map rcptKey =
      m0.recipients.map rcptKey := by
    simp only [Message.has_pending_delivery]
    rw [sweepGo_rcpts, List.map_map]
    have h : (rcptKey ∘ sweptRcptAt now 0 m0.domains) = rcptKey :=
      funext fun r => rcptKey_sweptRcptAt now 0 m0.domains r
    rw [h]
  have hpost : (postDsn now mp m0).recipients.map rcptKey = m0.recipients.map rcptKey := by
    unfold postDsn sendDsn
    rw [rcptKey_dsnRcpts]
    exact hsweep
  unfold deliverTask
  repeat' split
  all_goals first
    | exact hpost
    | (rw [domainPhase_rcptKey]; exact hpost)
